import Mathlib

/-!
A shallow embedding of the ts-demux MPEG-2 transport-stream demultiplexer
(src/main.rs) together with proofs about its specified behaviour.

Modelling conventions.
Bytes are `Nat`; the Rust `u8` bit operations are translated to `%` and `/`
arithmetic (`b & 0x1f` is `b % 32`, `(b & 0x30) >> 4` is `b / 16 % 4`,
`b & 0xf0 == 0xb0` is `b / 16 % 16 = 11`, and so on — these agree with the
Rust expressions on all byte values).  A failed `assert!` or a `panic!` is
modelled as an `Except.error` carrying the corresponding error of the
design's taxonomy; a Rust slice-index / slice-range panic, which the
taxonomy does not name, is `Err.boundsError`.  The `Box<dyn Write>` output
sinks are modelled as the list of bytes written so far; the
`UpdateProgramMap` closures are modelled as the list of insert-if-absent
operations they perform, applied in order; the `HashMap` program map is
modelled as an association list with first-match lookup.
-/

deriving instance DecidableEq for Except

namespace TsDemux

/-- Fatal-error taxonomy of the design; `boundsError` stands for a Rust
slice-index panic, which the taxonomy does not name. -/
inductive Err where
  | framingError
  | continuityError
  | malformedPes
  | malformedTable
  | unsupportedSection
  | unknownStreamType
  | unknownPid
  | boundsError
  deriving DecidableEq, Repr

/-- a transport packet: a list of 188 bytes -/
abbrev Packet := List Nat

/-- Rust element indexing `xs[i]`, which panics out of bounds. -/
def getByte (xs : List Nat) (i : Nat) : Except Err Nat :=
  match xs.get? i with
  | some b => .ok b
  | none => .error .boundsError

/-- Rust range slicing `xs[lo .. hi]`, which panics when `lo > hi` or
`hi > xs.len()`. -/
def slice (xs : List Nat) (lo hi : Nat) : Except Err (List Nat) :=
  if lo ≤ hi ∧ hi ≤ xs.length then .ok ((xs.drop lo).take (hi - lo))
  else .error .boundsError

/-- Rust suffix slicing `xs[lo ..]`, which panics when `lo > xs.len()`. -/
def sliceFrom (xs : List Nat) (lo : Nat) : Except Err (List Nat) :=
  if lo ≤ xs.length then .ok (xs.drop lo) else .error .boundsError

/-- `get_pid` (main.rs 23-26): `((packet[1] & 0x1f) << 8) | packet[2]`. -/
def get_pid (p : Packet) : Nat :=
  (p.getD 1 0 % 32) * 256 + p.getD 2 0

/-- the 2-bit adaptation-field-control of a packet: `(packet[3] & 0x30) >> 4` -/
def adaptation_field_control (p : Packet) : Nat :=
  p.getD 3 0 / 16 % 4

/-- `get_payload_offset` (main.rs 28-40). The `assert!` guarding the
adaptation-field length and the `panic!` on the control pattern `00` are
framing failures. -/
def get_payload_offset (p : Packet) : Except Err Nat :=
  if adaptation_field_control p = 1 then .ok 4
  else if adaptation_field_control p = 2 then .ok 188
  else if adaptation_field_control p = 3 then
    let adaptation_field_length := p.getD 4 0
    if adaptation_field_length + 5 ≤ 188 then .ok (adaptation_field_length + 5)
    else .error .framingError
  else .error .framingError

/-- `get_pusi` (main.rs 42-45): bit `0x40` of byte 1. -/
def get_pusi (p : Packet) : Bool :=
  decide (p.getD 1 0 / 64 % 2 = 1)

/-- `get_continuity_counter` (main.rs 47-50): low 4 bits of byte 3. -/
def get_continuity_counter (p : Packet) : Nat :=
  p.getD 3 0 % 16

/-- `get_pes_header_size` (main.rs 52-59): requires at least 9 bytes and a
leading `0x00`; the header size is `9 + pes[8]`.  (Bytes 1-2 of the
start-code prefix are deliberately not checked.) -/
def get_pes_header_size (pes : List Nat) : Except Err Nat :=
  if pes.length < 9 then .error .malformedPes
  else if pes.getD 0 0 ≠ 0 then .error .malformedPes
  else .ok (9 + pes.getD 8 0)

/-- which table interpreter a PSI handler embeds -/
inductive TableKind where
  | pat
  | pmt
  deriving DecidableEq, Repr

/-- the mutable state of a `Program` stream handler: its expected
continuity counter and the bytes written to its sink so far -/
structure ProgramState where
  continuity_counter : Nat
  written : List Nat
  deriving DecidableEq, Repr

/-- a handler in the program map: a PSI table handler or a `Program`
elementary-stream handler (`Box<dyn PacketProcessor>`) -/
inductive Handler where
  | psi (kind : TableKind)
  | program (stream_type : Nat) (state : ProgramState)
  deriving DecidableEq, Repr

/-- one insert-if-absent operation performed by an `UpdateProgramMap`
closure -/
inductive UpdateOp where
  | insertPmtHandler (pid : Nat)
  | insertEsHandler (pid : Nat) (stream_type : Nat)
  deriving DecidableEq, Repr

/-- an `UpdateProgramMap` closure, as the list of insert-if-absent
operations it performs, in order; `no_update` is `[]` -/
abbrev Update := List UpdateOp

/-- the `ProgramMap` (`HashMap<u16, Box<dyn PacketProcessor>>`), as an
association list -/
abbrev ProgramMap := List (Nat × Handler)

/-- the PID an update operation targets -/
def UpdateOp.pid : UpdateOp → Nat
  | .insertPmtHandler pid => pid
  | .insertEsHandler pid _ => pid

/-- `HashMap` lookup on the association-list model -/
def lookup : ProgramMap → Nat → Option Handler
  | [], _ => none
  | (k, h) :: rest, pid => if k = pid then some h else lookup rest pid

/-- the stream class chosen by `create_writer` (main.rs 133-155): the file
extension "aac" for stream type `0x0F`, "avc" for `0x1B`; any other stream
type panics with "unknown stream type". -/
def stream_extension (stream_type : Nat) : Except Err String :=
  if stream_type = 0x0F then .ok "aac"
  else if stream_type = 0x1B then .ok "avc"
  else .error .unknownStreamType

/-- `create_writer` (main.rs 133-155): fails on an unknown stream type,
otherwise opens a fresh (empty) sink. -/
def create_writer (stream_type : Nat) : Except Err (List Nat) :=
  match stream_extension stream_type with
  | .error e => .error e
  | .ok _ => .ok []

/-- `Program::new` (main.rs 77-81): continuity counter starts at 0. -/
def Program.new (writer : List Nat) : ProgramState :=
  { continuity_counter := 0, written := writer }

/-- applying one insert-if-absent operation to the program map, as the
`programs.entry(pid).or_insert_with(..)` calls do (main.rs 123-130 and
185-193); `create_writer` runs only when the PID is absent. -/
def applyOp (m : ProgramMap) : UpdateOp → Except Err ProgramMap
  | .insertPmtHandler pid =>
    match lookup m pid with
    | some _ => .ok m
    | none => .ok (m ++ [(pid, .psi .pmt)])
  | .insertEsHandler pid stream_type =>
    match lookup m pid with
    | some _ => .ok m
    | none =>
      match create_writer stream_type with
      | .error e => .error e
      | .ok w => .ok (m ++ [(pid, .program stream_type (Program.new w))])

/-- running an `UpdateProgramMap` closure: its insert-if-absent operations
applied in order. -/
def applyUpdate : Update → ProgramMap → Except Err ProgramMap
  | [], m => .ok m
  | op :: u, m =>
    match applyOp m op with
    | .ok m₁ => applyUpdate u m₁
    | .error e => .error e

/-- `program_association_table` (main.rs 115-131): a 4-byte payload whose
byte 2 carries the `111` reserved pattern; yields an update registering a
PMT-flavored PSI handler at the announced PID. -/
def program_association_table (table_data : List Nat) : Except Err Update :=
  if table_data.length ≠ 4 then .error .malformedTable
  else if table_data.getD 2 0 / 32 % 8 ≠ 7 then .error .malformedTable
  else
    let program_pid := (table_data.getD 2 0 % 32) * 256 + table_data.getD 3 0
    .ok [.insertPmtHandler program_pid]

/-- the elementary-stream record loop of `program_map_table`
(main.rs 173-198), structurally recursive on a fuel argument; fuel
`es.length` suffices since every iteration consumes at least 5 bytes. -/
def esLoopF : Nat → List Nat → Except Err Update
  | 0, es => if es.length = 0 then .ok [] else .error .malformedTable
  | fuel + 1, es =>
    if 5 ≤ es.length then
      let stream_type := es.getD 0 0
      if es.getD 1 0 / 32 % 8 ≠ 7 then .error .malformedTable
      else
        let es_pid := (es.getD 1 0 % 32) * 256 + es.getD 2 0
        if es.getD 3 0 / 4 % 64 ≠ 60 then .error .malformedTable
        else
          let es_info_length := (es.getD 3 0 % 4) * 256 + es.getD 4 0
          if 5 + es_info_length ≤ es.length then
            match esLoopF fuel (es.drop (5 + es_info_length)) with
            | .ok u => .ok (.insertEsHandler es_pid stream_type :: u)
            | .error e => .error e
          else .error .malformedTable
    else if es.length = 0 then .ok [] else .error .malformedTable

/-- the elementary-stream record loop, entered with full fuel -/
def esLoop (es : List Nat) : Except Err Update :=
  esLoopF es.length es

/-- `program_map_table` (main.rs 157-200): header checks, the
`program_info_length < table_data.len()` assertion, the slice skipping the
program descriptors, then the record loop. -/
def program_map_table (table_data : List Nat) : Except Err Update :=
  if table_data.length ≤ 4 then .error .malformedTable
  else if table_data.getD 0 0 / 32 % 8 ≠ 7 then .error .malformedTable
  else if table_data.getD 2 0 / 4 % 64 ≠ 60 then .error .malformedTable
  else
    let program_info_length := (table_data.getD 2 0 % 4) * 256 + table_data.getD 3 0
    if table_data.length ≤ program_info_length then .error .malformedTable
    else
      match sliceFrom table_data (4 + program_info_length) with
      | .error e => .error e
      | .ok es_info_data => esLoop es_info_data

/-- the `table_processor` a PSI handler calls -/
def tableProcessor : TableKind → List Nat → Except Err Update
  | .pat => program_association_table
  | .pmt => program_map_table

/-- the table-syntax-section part of `ProgramSpecificInformation::process`
(main.rs 244-261): reads bytes 0-4 of the section, checks the reserved
bits and the current/next indicator, slices out the table data and runs
the embedded table processor, then locates the CRC. -/
def psiSyntax (k : TableKind) (tss : List Nat) (section_length : Nat) :
    Except Err Update :=
  match getByte tss 0 with
  | .error e => .error e
  | .ok _b0 =>
  match getByte tss 1 with
  | .error e => .error e
  | .ok _b1 =>
  match getByte tss 2 with
  | .error e => .error e
  | .ok b2 =>
  if b2 / 64 % 4 ≠ 3 then .error .malformedTable
  else if b2 % 2 ≠ 1 then .error .unsupportedSection
  else
  match getByte tss 3 with
  | .error e => .error e
  | .ok _b3 =>
  match getByte tss 4 with
  | .error e => .error e
  | .ok _b4 =>
  match slice tss 5 (section_length - 4) with
  | .error e => .error e
  | .ok table_data =>
  match tableProcessor k table_data with
  | .error e => .error e
  | .ok update =>
  match slice tss (section_length - 4) section_length with
  | .error e => .error e
  | .ok _crc32 => .ok update

/-- the table-header part of `ProgramSpecificInformation::process`
(main.rs 229-256), entered once the payload offset (past pointer field and
filler) is known: reads the 3-byte table header, checks the table id, the
`1011` bit pattern and `section_length < 1021`, slices the CRC-covered
region and the table syntax section, and hands over to `psiSyntax`. -/
def psiAfterOffset (k : TableKind) (p : Packet) (offset : Nat) :
    Except Err Update :=
  match slice p offset (offset + 3) with
  | .error e => .error e
  | .ok table_header =>
    if table_header.getD 0 0 = 0xFF then .error .malformedTable
    else if table_header.getD 1 0 / 16 % 16 ≠ 11 then .error .malformedTable
    else
      let section_length := (table_header.getD 1 0 % 16) * 256 + table_header.getD 2 0
      if 1021 ≤ section_length then .error .malformedTable
      else
        match slice p offset (offset + 3 + section_length) with
        | .error e => .error e
        | .ok _crc_payload =>
          match slice p (offset + 3) (offset + 3 + section_length) with
          | .error e => .error e
          | .ok tss => psiSyntax k tss section_length

/-- `ProgramSpecificInformation::process` (main.rs 214-272): payload
offset, then on a unit start the pointer field and its `0xFF` filler
bytes, then the table header and syntax section. -/
def psiProcess (k : TableKind) (p : Packet) : Except Err Update :=
  match get_payload_offset p with
  | .error e => .error e
  | .ok offset0 =>
    if get_pusi p then
      match getByte p offset0 with
      | .error e => .error e
      | .ok pointer_field =>
        match slice p (offset0 + 1) (offset0 + 1 + pointer_field) with
        | .error e => .error e
        | .ok fillers =>
          if fillers.all (fun b => b = 0xFF) then
            psiAfterOffset k p (offset0 + 1 + pointer_field)
          else .error .malformedTable
    else psiAfterOffset k p offset0

/-- the PES-header skip inside `Program::process` (main.rs 96-98): on a
unit start, advance the offset by the PES header size computed from the
payload slice; otherwise leave it unchanged. -/
def pes_skip (p : Packet) (offset0 : Nat) : Except Err Nat :=
  if get_pusi p then
    match sliceFrom p offset0 with
    | .error e => .error e
    | .ok pes =>
      match get_pes_header_size pes with
      | .error e => .error e
      | .ok hsz => .ok (offset0 + hsz)
  else .ok offset0

/-- `Program::process` (main.rs 83-104): sync re-check, continuity check
and advance, payload offset, PES header skip on a unit start, then the
write of the rest of the packet to the sink. -/
def Program.process (s : ProgramState) (p : Packet) :
    Except Err (ProgramState × Update) :=
  if p.getD 0 0 ≠ 0x47 then .error .framingError
  else if get_continuity_counter p ≠ s.continuity_counter then
    .error .continuityError
  else
    match get_payload_offset p with
    | .error e => .error e
    | .ok offset0 =>
      match pes_skip p offset0 with
      | .error e => .error e
      | .ok offset =>
        match sliceFrom p offset with
        | .error e => .error e
        | .ok tail =>
          .ok ({ continuity_counter := (s.continuity_counter + 1) % 16,
                 written := s.written ++ tail }, [])

/-- feeding a list of packets to one `Program` handler in sequence -/
def runProgram (s : ProgramState) : List Packet → Except Err ProgramState
  | [] => .ok s
  | p :: ps =>
    match Program.process s p with
    | .ok (s', _) => runProgram s' ps
    | .error e => .error e

/-- dynamic dispatch to a handler's `process` method -/
def handlerProcess (h : Handler) (p : Packet) :
    Except Err (Handler × Update) :=
  match h with
  | .psi k =>
    match psiProcess k p with
    | .error e => .error e
    | .ok u => .ok (.psi k, u)
  | .program ty s =>
    match Program.process s p with
    | .error e => .error e
    | .ok (s', u) => .ok (.program ty s', u)

/-- the program map as `main` seeds it (main.rs 285-286): only the PAT
handler, at PID 0. -/
def initialPrograms : ProgramMap := [(0, .psi .pat)]

/-- writing back the post-`process` state of the handler at a PID (the
in-place mutation behind `programs.get_mut(&pid)`) -/
def replaceHandler : ProgramMap → Nat → Handler → ProgramMap
  | [], _, _ => []
  | (k, h₀) :: rest, pid, h =>
    if k = pid then (k, h) :: rest else (k, h₀) :: replaceHandler rest pid h

/-- one iteration of the demux loop (main.rs 290-302): sync assert, PID
lookup (an absent PID panics with "Unknown PID"), handler dispatch, then
application of the produced routing update. -/
def demuxStep (m : ProgramMap) (p : Packet) : Except Err ProgramMap :=
  if p.getD 0 0 ≠ 0x47 then .error .framingError
  else
    match lookup m (get_pid p) with
    | none => .error .unknownPid
    | some h =>
      match handlerProcess h p with
      | .error e => .error e
      | .ok (h', u) => applyUpdate u (replaceHandler m (get_pid p) h')

/-! ## Helper lemmas -/

theorem getD_drop (l : List Nat) (n i : Nat) :
    (l.drop n).getD i 0 = l.getD (n + i) 0 := by
  simp [List.getD_eq_getElem?_getD, List.getElem?_drop]

theorem getD_take (l : List Nat) {n i : Nat} (h : i < n) :
    (l.take n).getD i 0 = l.getD i 0 := by
  simp [List.getD_eq_getElem?_getD, List.getElem?_take, h]

theorem slice_ok {xs : List Nat} {lo hi : Nat} (h1 : lo ≤ hi)
    (h2 : hi ≤ xs.length) :
    slice xs lo hi = .ok ((xs.drop lo).take (hi - lo)) := by
  simp [slice, h1, h2]

theorem slice_err {xs : List Nat} {lo hi : Nat}
    (h : ¬(lo ≤ hi ∧ hi ≤ xs.length)) :
    slice xs lo hi = .error .boundsError := by
  simp only [slice, if_neg h]

theorem sliceFrom_ok {xs : List Nat} {lo : Nat} (h : lo ≤ xs.length) :
    sliceFrom xs lo = .ok (xs.drop lo) := by
  simp [sliceFrom, h]

theorem get_payload_offset_le {p : Packet} {off : Nat}
    (h : get_payload_offset p = .ok off) : off ≤ 188 := by
  unfold get_payload_offset at h
  split at h
  · cases h; omega
  · split at h
    · cases h; omega
    · split at h
      · dsimp only at h
        split at h
        · cases h; omega
        · cases h
      · cases h

theorem lookup_append_some {m : ProgramMap} {pid : Nat} {h : Handler}
    (hl : lookup m pid = some h) (l : ProgramMap) :
    lookup (m ++ l) pid = some h := by
  induction m with
  | nil => simp [lookup] at hl
  | cons kv rest ih =>
    obtain ⟨k, h₀⟩ := kv
    by_cases hk : k = pid
    · simp only [lookup, if_pos hk] at hl ⊢
      exact hl
    · simp only [lookup, if_neg hk] at hl ⊢
      exact ih hl

theorem lookup_append_none {m : ProgramMap} {pid : Nat}
    (hl : lookup m pid = none) (l : ProgramMap) :
    lookup (m ++ l) pid = lookup l pid := by
  induction m with
  | nil => rfl
  | cons kv rest ih =>
    obtain ⟨k, h₀⟩ := kv
    by_cases hk : k = pid
    · simp only [lookup, if_pos hk] at hl
      cases hl
    · simp only [lookup, if_neg hk] at hl ⊢
      exact ih hl

theorem applyOp_mono {m m₁ : ProgramMap} {op : UpdateOp}
    (ha : applyOp m op = .ok m₁) {pid : Nat} {h : Handler}
    (hl : lookup m pid = some h) : lookup m₁ pid = some h := by
  cases op with
  | insertPmtHandler q =>
    simp only [applyOp] at ha
    cases hq : lookup m q with
    | some h₀ => rw [hq] at ha; cases ha; exact hl
    | none => rw [hq] at ha; cases ha; exact lookup_append_some hl _
  | insertEsHandler q ty =>
    simp only [applyOp] at ha
    cases hq : lookup m q with
    | some h₀ => rw [hq] at ha; cases ha; exact hl
    | none =>
      rw [hq] at ha
      cases hw : create_writer ty with
      | error e => rw [hw] at ha; cases ha
      | ok w => rw [hw] at ha; cases ha; exact lookup_append_some hl _

theorem applyUpdate_mono {u : Update} :
    ∀ {m m' : ProgramMap}, applyUpdate u m = .ok m' →
    ∀ {pid : Nat} {h : Handler},
      lookup m pid = some h → lookup m' pid = some h := by
  induction u with
  | nil => intro m m' ha pid h hl; cases ha; exact hl
  | cons op u ih =>
    intro m m' ha pid h hl
    unfold applyUpdate at ha
    cases h₁ : applyOp m op with
    | error e => rw [h₁] at ha; cases ha
    | ok m₁ => rw [h₁] at ha; exact ih ha (applyOp_mono h₁ hl)

theorem applyOp_pid_isSome {m m₁ : ProgramMap} {op : UpdateOp}
    (ha : applyOp m op = .ok m₁) : (lookup m₁ op.pid).isSome := by
  cases op with
  | insertPmtHandler q =>
    simp only [applyOp] at ha
    cases hq : lookup m q with
    | some h₀ =>
      rw [hq] at ha; cases ha
      simp [UpdateOp.pid, hq]
    | none =>
      rw [hq] at ha; cases ha
      simp [UpdateOp.pid, lookup_append_none hq, lookup]
  | insertEsHandler q ty =>
    simp only [applyOp] at ha
    cases hq : lookup m q with
    | some h₀ =>
      rw [hq] at ha; cases ha
      simp [UpdateOp.pid, hq]
    | none =>
      rw [hq] at ha
      cases hw : create_writer ty with
      | error e => rw [hw] at ha; cases ha
      | ok w =>
        rw [hw] at ha; cases ha
        simp [UpdateOp.pid, lookup_append_none hq, lookup]

theorem applyOp_present_noop {m : ProgramMap} {op : UpdateOp}
    (h : (lookup m op.pid).isSome) : applyOp m op = .ok m := by
  obtain ⟨h₀, hq⟩ := Option.isSome_iff_exists.mp h
  cases op with
  | insertPmtHandler q =>
    simp only [UpdateOp.pid] at hq
    simp [applyOp, hq]
  | insertEsHandler q ty =>
    simp only [UpdateOp.pid] at hq
    simp [applyOp, hq]

theorem applyUpdate_idem {u : Update} :
    ∀ {m m' : ProgramMap}, applyUpdate u m = .ok m' →
    applyUpdate u m' = .ok m' := by
  induction u with
  | nil => intro m m' ha; cases ha; rfl
  | cons op u ih =>
    intro m m' ha
    unfold applyUpdate at ha ⊢
    cases h₁ : applyOp m op with
    | error e => rw [h₁] at ha; cases ha
    | ok m₁ =>
      rw [h₁] at ha
      have hp : (lookup m₁ op.pid).isSome := applyOp_pid_isSome h₁
      have hp' : (lookup m' op.pid).isSome := by
        obtain ⟨h₀, hq⟩ := Option.isSome_iff_exists.mp hp
        exact Option.isSome_iff_exists.mpr ⟨h₀, applyUpdate_mono ha hq⟩
      rw [applyOp_present_noop hp']
      exact ih ha

theorem lookup_replaceHandler_isSome (m : ProgramMap) (k : Nat) (h : Handler)
    (pid : Nat) :
    (lookup (replaceHandler m k h) pid).isSome = (lookup m pid).isSome := by
  induction m with
  | nil => rfl
  | cons kv rest ih =>
    obtain ⟨k₀, h₀⟩ := kv
    by_cases hk : k₀ = k
    · simp only [replaceHandler, if_pos hk]
      by_cases hp : k₀ = pid
      · simp [lookup, if_pos hp]
      · simp [lookup, if_neg hp]
    · simp only [replaceHandler, if_neg hk]
      by_cases hp : k₀ = pid
      · simp [lookup, if_pos hp]
      · simp [lookup, if_neg hp, ih]

/-- the shape of data the PMT record loop accepts: a sequence of
elementary-stream records with valid reserved bits, each of total size
`5 + es_info_length`, together consuming the data exactly -/
inductive EsRecords : List Nat → Prop where
  | nil : EsRecords []
  | cons {es : List Nat} :
      5 ≤ es.length →
      es.getD 1 0 / 32 % 8 = 7 →
      es.getD 3 0 / 4 % 64 = 60 →
      5 + ((es.getD 3 0 % 4) * 256 + es.getD 4 0) ≤ es.length →
      EsRecords (es.drop (5 + ((es.getD 3 0 % 4) * 256 + es.getD 4 0))) →
      EsRecords es

theorem esLoopF_record_step {n : Nat} {es : List Nat}
    (h5 : 5 ≤ es.length) (hb1 : es.getD 1 0 / 32 % 8 = 7)
    (hb3 : es.getD 3 0 / 4 % 64 = 60)
    (hlen : 5 + ((es.getD 3 0 % 4) * 256 + es.getD 4 0) ≤ es.length) :
    esLoopF (n + 1) es =
      match esLoopF n (es.drop (5 + ((es.getD 3 0 % 4) * 256 + es.getD 4 0))) with
      | .ok u => .ok (.insertEsHandler ((es.getD 1 0 % 32) * 256 + es.getD 2 0)
                        (es.getD 0 0) :: u)
      | .error e => .error e := by
  simp only [esLoopF]
  rw [if_pos h5, if_neg (not_not_intro hb1), if_neg (not_not_intro hb3),
    if_pos hlen]

theorem esLoopF_leftover {n : Nat} {es : List Nat}
    (hne : es ≠ []) (h5 : es.length < 5) :
    esLoopF n es = .error .malformedTable := by
  have h0 : es.length ≠ 0 := by
    intro h
    exact hne (List.eq_nil_of_length_eq_zero h)
  cases n with
  | zero => simp only [esLoopF]; rw [if_neg h0]
  | succ n =>
    simp only [esLoopF]
    rw [if_neg (by omega), if_neg h0]

theorem esLoopF_overflow {n : Nat} {es : List Nat}
    (h5 : 5 ≤ es.length) (hb1 : es.getD 1 0 / 32 % 8 = 7)
    (hb3 : es.getD 3 0 / 4 % 64 = 60)
    (hover : es.length < 5 + ((es.getD 3 0 % 4) * 256 + es.getD 4 0))
    (hn : es.length ≤ n) :
    esLoopF n es = .error .malformedTable := by
  cases n with
  | zero => omega
  | succ n =>
    simp only [esLoopF]
    rw [if_pos h5, if_neg (not_not_intro hb1), if_neg (not_not_intro hb3),
      if_neg (by omega)]

theorem esLoopF_ok_iff (n : Nat) : ∀ es : List Nat, es.length ≤ n →
    ((∃ u, esLoopF n es = .ok u) ↔ EsRecords es) := by
  induction n with
  | zero =>
    intro es hn
    have hes : es = [] := List.eq_nil_of_length_eq_zero (Nat.le_zero.mp hn)
    subst hes
    constructor
    · intro _
      exact EsRecords.nil
    · intro _
      exact ⟨[], rfl⟩
  | succ n ih =>
    intro es hn
    by_cases h5 : 5 ≤ es.length
    · by_cases hb1 : es.getD 1 0 / 32 % 8 = 7
      · by_cases hb3 : es.getD 3 0 / 4 % 64 = 60
        · by_cases hlen : 5 + ((es.getD 3 0 % 4) * 256 + es.getD 4 0) ≤ es.length
          · have hdrop :
                (es.drop (5 + ((es.getD 3 0 % 4) * 256 + es.getD 4 0))).length ≤ n := by
              rw [List.length_drop]; omega
            have ihd := ih _ hdrop
            rw [esLoopF_record_step h5 hb1 hb3 hlen]
            constructor
            · rintro ⟨u, hu⟩
              cases hrec : esLoopF n
                  (es.drop (5 + ((es.getD 3 0 % 4) * 256 + es.getD 4 0))) with
              | error e => rw [hrec] at hu; cases hu
              | ok u' =>
                exact EsRecords.cons h5 hb1 hb3 hlen (ihd.mp ⟨u', hrec⟩)
            · intro hr
              obtain ⟨u', hu'⟩ := ihd.mpr (by cases hr with
                | nil => simp at h5
                | cons _ _ _ _ htail => exact htail)
              exact ⟨_, by rw [hu']⟩
          · constructor
            · rintro ⟨u, hu⟩
              rw [esLoopF_overflow h5 hb1 hb3 (by omega) hn] at hu
              cases hu
            · intro hr
              cases hr with
              | nil => simp at h5
              | cons _ _ _ hl _ => exact absurd hl hlen
        · constructor
          · rintro ⟨u, hu⟩
            simp only [esLoopF] at hu
            rw [if_pos h5, if_neg (not_not_intro hb1), if_pos (by exact hb3)] at hu
            cases hu
          · intro hr
            cases hr with
            | nil => simp at h5
            | cons _ _ hb _ _ => exact absurd hb hb3
      · constructor
        · rintro ⟨u, hu⟩
          simp only [esLoopF] at hu
          rw [if_pos h5, if_pos (by exact hb1)] at hu
          cases hu
        · intro hr
          cases hr with
          | nil => simp at h5
          | cons _ hb _ _ _ => exact absurd hb hb1
    · by_cases h0 : es = []
      · subst h0
        constructor
        · intro _
          exact EsRecords.nil
        · intro _
          refine ⟨[], ?_⟩
          simp [esLoopF]
      · constructor
        · rintro ⟨u, hu⟩
          rw [esLoopF_leftover h0 (by omega)] at hu
          cases hu
        · intro hr
          cases hr with
          | nil => exact absurd rfl h0
          | cons hge _ _ _ _ => omega

theorem process_ok_continuity {s : ProgramState} {p : Packet}
    {r : ProgramState × Update} (h : Program.process s p = .ok r) :
    get_continuity_counter p = s.continuity_counter ∧
    r.1.continuity_counter = (s.continuity_counter + 1) % 16 := by
  unfold Program.process at h
  by_cases hs : p.getD 0 0 ≠ 0x47
  · rw [if_pos hs] at h; cases h
  · rw [if_neg hs] at h
    by_cases hc : get_continuity_counter p ≠ s.continuity_counter
    · rw [if_pos hc] at h; cases h
    · rw [if_neg hc] at h
      refine ⟨not_not.mp hc, ?_⟩
      cases ho : get_payload_offset p with
      | error e => rw [ho] at h; cases h
      | ok offset0 =>
        rw [ho] at h
        dsimp only at h
        cases hap : pes_skip p offset0 with
        | error e => rw [hap] at h; cases h
        | ok offset =>
          rw [hap] at h
          dsimp only at h
          cases ht : sliceFrom p offset with
          | error e => rw [ht] at h; cases h
          | ok tail =>
            rw [ht] at h
            cases h
            rfl

theorem runProgram_counters {ps : List Packet} :
    ∀ s s', s.continuity_counter < 16 → runProgram s ps = .ok s' →
      ∀ i, (h : i < ps.length) →
        get_continuity_counter (ps.get ⟨i, h⟩)
          = (s.continuity_counter + i) % 16 := by
  induction ps with
  | nil =>
    intro s s' _ _ i hi
    simp at hi
  | cons p ps ih =>
    intro s s' hlt hrun i hi
    unfold runProgram at hrun
    cases hp : Program.process s p with
    | error e => rw [hp] at hrun; cases hrun
    | ok r =>
      obtain ⟨s₁, u⟩ := r
      rw [hp] at hrun
      obtain ⟨hcc, hcc'⟩ := process_ok_continuity hp
      cases i with
      | zero =>
        simpa using hcc.trans (by omega)
      | succ i =>
        have hlt' : s₁.continuity_counter < 16 := by
          simp only at hcc'
          omega
        have := ih s₁ s' hlt' hrun i (by simpa using hi)
        simp only at hcc'
        simp only [List.get_cons_succ] at this ⊢
        rw [this, hcc']
        omega

theorem sliceFrom_err {xs : List Nat} {lo : Nat} (h : xs.length < lo) :
    sliceFrom xs lo = .error .boundsError := by
  unfold sliceFrom
  rw [if_neg (Nat.not_le.mpr h)]

theorem process_pusi_short_payload {s : ProgramState} {p : Packet} {off : Nat}
    (hlen : p.length = 188) (hsync : p.getD 0 0 = 0x47)
    (hcc : get_continuity_counter p = s.continuity_counter)
    (hpusi : get_pusi p = true)
    (hoff : get_payload_offset p = .ok off) (hsmall : 188 - off < 9) :
    Program.process s p = .error .malformedPes := by
  have hoffle : off ≤ 188 := get_payload_offset_le hoff
  have hslice : sliceFrom p off = .ok (p.drop off) := sliceFrom_ok (by omega)
  have hlen9 : (p.drop off).length < 9 := by
    rw [List.length_drop, hlen]; omega
  have hpes : get_pes_header_size (p.drop off) = .error .malformedPes := by
    unfold get_pes_header_size
    rw [if_pos hlen9]
  have hskip : pes_skip p off = .error .malformedPes := by
    unfold pes_skip
    rw [if_pos hpusi, hslice]
    dsimp only
    rw [hpes]
  unfold Program.process
  rw [if_neg (not_not_intro hsync), if_neg (not_not_intro hcc), hoff]
  dsimp only
  rw [hskip]

/-! ## Claims -/

set_option maxRecDepth 100000

/-- C4: a Stream Handler's expected continuity counter starts at 0
(Program::new); a packet passing the sync re-check whose 4-bit continuity
counter differs from the expected value fails with ContinuityError; when
processing succeeds the observed counter equalled the expected value and
the expected value advances by 1 modulo 16; hence over any run that starts
from Program::new, the accepted packets carry exactly the counter sequence
0,1,2,...,15,0,1,... -/
theorem C4_continuity_sequence :
    (∀ w, (Program.new w).continuity_counter = 0) ∧
    (∀ s p, p.getD 0 0 = 0x47 →
      get_continuity_counter p ≠ s.continuity_counter →
      Program.process s p = .error .continuityError) ∧
    (∀ s p r, Program.process s p = .ok r →
      get_continuity_counter p = s.continuity_counter ∧
      r.1.continuity_counter = (s.continuity_counter + 1) % 16) ∧
    (∀ w ps s', runProgram (Program.new w) ps = .ok s' →
      ∀ i, (h : i < ps.length) →
        get_continuity_counter (ps.get ⟨i, h⟩) = i % 16) := by
  refine ⟨fun w => rfl, ?_, ?_, ?_⟩
  · intro s p hs hc
    unfold Program.process
    rw [if_neg (not_not_intro hs), if_pos hc]
  · intro s p r h
    exact process_ok_continuity h
  · intro w ps s' hrun i hi
    have := runProgram_counters (Program.new w) s' (by simp [Program.new]) hrun i hi
    simpa [Program.new] using this

theorem C4_continuity_sequence_witness :
    Program.process (Program.new [])
      ([0x47, 0x00, 0x00, 0x05] ++ List.replicate 184 0)
      = .error .continuityError ∧
    (Program.new []).continuity_counter = 0 :=
  ⟨C4_continuity_sequence.2.1 (Program.new []) _ (by decide) (by decide),
   C4_continuity_sequence.1 []⟩

/-- C5: the payload offset computed from the adaptation-field-control bits
is 4 for pattern 01, 188 for pattern 10, and 5 + adaptation_field_length
(byte 4) for pattern 11 provided that does not exceed 188 (failing
otherwise); pattern 00 is a fatal error; and every offset returned is at
most 188. -/
theorem C5_payload_offset (p : Packet) (hlen : p.length = 188) :
    (adaptation_field_control p = 1 → get_payload_offset p = .ok 4) ∧
    (adaptation_field_control p = 2 → get_payload_offset p = .ok 188) ∧
    (adaptation_field_control p = 3 →
      (p.getD 4 0 + 5 ≤ 188 →
        get_payload_offset p = .ok (p.getD 4 0 + 5)) ∧
      (188 < p.getD 4 0 + 5 →
        get_payload_offset p = .error .framingError)) ∧
    (adaptation_field_control p = 0 →
      get_payload_offset p = .error .framingError) ∧
    (∀ off, get_payload_offset p = .ok off → off ≤ 188) := by
  refine ⟨?_, ?_, ?_, ?_, fun off h => get_payload_offset_le h⟩
  · intro h1
    unfold get_payload_offset
    rw [if_pos h1]
  · intro h2
    unfold get_payload_offset
    rw [if_neg (by omega), if_pos h2]
  · intro h3
    constructor
    · intro hle
      unfold get_payload_offset
      rw [if_neg (by omega), if_neg (by omega), if_pos h3]
      dsimp only
      rw [if_pos hle]
    · intro hgt
      unfold get_payload_offset
      rw [if_neg (by omega), if_neg (by omega), if_pos h3]
      dsimp only
      rw [if_neg (by omega)]
  · intro h0
    unfold get_payload_offset
    rw [if_neg (by omega), if_neg (by omega), if_neg (by omega)]

theorem C5_payload_offset_witness :
    get_payload_offset ([0x47, 0x40, 0x00, 0x10] ++ List.replicate 184 0)
      = .ok 4 ∧
    get_payload_offset ([0x47, 0x40, 0x00, 0x20] ++ List.replicate 184 0)
      = .ok 188 ∧
    get_payload_offset ([0x47, 0x40, 0x00, 0x30, 0x0A] ++ List.replicate 183 0)
      = .ok 15 ∧
    get_payload_offset ([0x47, 0x40, 0x00, 0x00] ++ List.replicate 184 0)
      = .error .framingError :=
  ⟨(C5_payload_offset _ (by decide)).1 (by decide),
   (C5_payload_offset _ (by decide)).2.1 (by decide),
   ((C5_payload_offset _ (by decide)).2.2.1 (by decide)).1 (by decide),
   (C5_payload_offset _ (by decide)).2.2.2.1 (by decide)⟩

/-- C10: a packet dispatched to a Stream Handler with the
payload-unit-start indicator set fails with MalformedPes unless at least 9
payload bytes remain after the adaptation field; in particular a
unit-start packet with adaptation-field-control 10 (payload offset 188, no
payload bytes) is a fatal error, not a no-op write. -/
theorem C10_unit_start_requires_payload :
    (∀ s p off, p.length = 188 → p.getD 0 0 = 0x47 →
      get_continuity_counter p = s.continuity_counter →
      get_pusi p = true →
      get_payload_offset p = .ok off → 188 - off < 9 →
      Program.process s p = .error .malformedPes) ∧
    (∀ s p, p.length = 188 → p.getD 0 0 = 0x47 →
      get_continuity_counter p = s.continuity_counter →
      get_pusi p = true →
      adaptation_field_control p = 2 →
      Program.process s p = .error .malformedPes) := by
  constructor
  · intro s p off hlen hsync hcc hpusi hoff hsmall
    exact process_pusi_short_payload hlen hsync hcc hpusi hoff hsmall
  · intro s p hlen hsync hcc hpusi hafc
    have hoff : get_payload_offset p = .ok 188 := by
      unfold get_payload_offset
      rw [if_neg (by omega), if_pos hafc]
    exact process_pusi_short_payload hlen hsync hcc hpusi hoff (by omega)

theorem C10_unit_start_requires_payload_witness :
    Program.process (Program.new [])
      ([0x47, 0x40, 0x00, 0x20] ++ List.replicate 184 0)
      = .error .malformedPes :=
  C10_unit_start_requires_payload.2 (Program.new []) _
    (by decide) (by decide) (by decide) (by decide) (by decide)

/-- C6: for a packet that starts a PES unit (sync byte, adaptation control
01, matching continuity counter, payload byte 0 equal to 0, header length L in
payload byte 8, header fitting in the packet), the handler writes to its
sink exactly the bytes after the 9 + L PES header bytes — no header byte
appears in the output. -/
theorem C6_pes_roundtrip (s : ProgramState) (p : Packet)
    (hlen : p.length = 188) (hsync : p.getD 0 0 = 0x47)
    (hafc : adaptation_field_control p = 1)
    (hpusi : get_pusi p = true)
    (hcc : get_continuity_counter p = s.continuity_counter)
    (hstart : p.getD 4 0 = 0)
    (hfit : 13 + p.getD 12 0 ≤ 188) :
    Program.process s p =
      .ok ({ continuity_counter := (s.continuity_counter + 1) % 16,
             written := s.written ++ p.drop (13 + p.getD 12 0) }, []) := by
  have hoff : get_payload_offset p = .ok 4 := by
    unfold get_payload_offset
    rw [if_pos hafc]
  have hslice4 : sliceFrom p 4 = .ok (p.drop 4) := sliceFrom_ok (by omega)
  have hpeslen : ¬((p.drop 4).length < 9) := by
    rw [List.length_drop, hlen]; omega
  have hpes0 : (p.drop 4).getD 0 0 = 0 := by
    rw [getD_drop]; exact hstart
  have hpes8 : (p.drop 4).getD 8 0 = p.getD 12 0 := by
    rw [getD_drop]
  have hhdr : get_pes_header_size (p.drop 4) = .ok (9 + p.getD 12 0) := by
    unfold get_pes_header_size
    rw [if_neg hpeslen, if_neg (not_not_intro hpes0), hpes8]
  have hskip : pes_skip p 4 = .ok (13 + p.getD 12 0) := by
    unfold pes_skip
    rw [if_pos hpusi, hslice4]
    dsimp only
    rw [hhdr]
    dsimp only
    rw [show 4 + (9 + p.getD 12 0) = 13 + p.getD 12 0 by omega]
  have htail : sliceFrom p (13 + p.getD 12 0) = .ok (p.drop (13 + p.getD 12 0)) :=
    sliceFrom_ok (by omega)
  unfold Program.process
  rw [if_neg (not_not_intro hsync), if_neg (not_not_intro hcc), hoff]
  dsimp only
  rw [hskip]
  dsimp only
  rw [htail]

theorem C6_pes_roundtrip_witness :
    Program.process (Program.new [])
      ([0x47, 0x40, 0x00, 0x10] ++ List.replicate 184 0)
      = .ok ({ continuity_counter := 1, written := List.replicate 175 0 }, []) :=
  C6_pes_roundtrip (Program.new []) _
    (by decide) (by decide) (by decide) (by decide) (by decide) (by decide)
    (by decide)

/-- C3: applying a routing update twice is the same as applying it once:
if applying it once succeeds and yields a table, applying it again to that
table succeeds and leaves the table unchanged — no PID is inserted twice
and no sink factory runs a second time. -/
theorem C3_routing_update_idempotent (u : Update) (m m' : ProgramMap)
    (h : applyUpdate u m = .ok m') : applyUpdate u m' = .ok m' :=
  applyUpdate_idem h

theorem C3_routing_update_idempotent_witness :
    applyUpdate [.insertPmtHandler 0x20]
      [(0, Handler.psi .pat), (0x20, Handler.psi .pmt)]
      = .ok [(0, Handler.psi .pat), (0x20, Handler.psi .pmt)] :=
  C3_routing_update_idempotent [.insertPmtHandler 0x20] initialPrograms _
    (by decide)

/-- C9: the routing table starts containing exactly the PAT handler at
PID 0; applying any routing update preserves every existing binding
unchanged (handlers are only ever inserted if absent, never replaced or
removed); and one demux-loop step never removes a registered PID. -/
theorem C9_routing_table_monotone :
    (lookup initialPrograms 0 = some (.psi .pat)) ∧
    (∀ pid, pid ≠ 0 → lookup initialPrograms pid = none) ∧
    (∀ u m m', applyUpdate u m = .ok m' →
      ∀ pid h, lookup m pid = some h → lookup m' pid = some h) ∧
    (∀ m p m', demuxStep m p = .ok m' →
      ∀ pid, (lookup m pid).isSome → (lookup m' pid).isSome) := by
  refine ⟨rfl, ?_, ?_, ?_⟩
  · intro pid hpid
    have hne : ¬(0 = pid) := fun h => hpid h.symm
    simp only [initialPrograms, lookup, if_neg hne]
  · intro u m m' ha pid h hl
    exact applyUpdate_mono ha hl
  · intro m p m' hd pid hp
    unfold demuxStep at hd
    by_cases hs : p.getD 0 0 ≠ 0x47
    · rw [if_pos hs] at hd; cases hd
    · rw [if_neg hs] at hd
      cases hq : lookup m (get_pid p) with
      | none => rw [hq] at hd; cases hd
      | some h₀ =>
        rw [hq] at hd
        dsimp only at hd
        cases hh : handlerProcess h₀ p with
        | error e => rw [hh] at hd; cases hd
        | ok r =>
          obtain ⟨h', u⟩ := r
          rw [hh] at hd
          dsimp only at hd
          have hp1 : (lookup (replaceHandler m (get_pid p) h') pid).isSome := by
            rw [lookup_replaceHandler_isSome]
            exact hp
          obtain ⟨hh₁, hq₁⟩ := Option.isSome_iff_exists.mp hp1
          exact Option.isSome_iff_exists.mpr ⟨hh₁, applyUpdate_mono hd hq₁⟩

theorem C9_routing_table_monotone_witness :
    lookup [(0, Handler.psi .pat), (0x20, Handler.psi .pmt)] 0
      = some (Handler.psi .pat) ∧
    lookup initialPrograms 5 = none :=
  ⟨C9_routing_table_monotone.2.2.1 [.insertPmtHandler 0x20] initialPrograms _
      (by decide) 0 _ (by decide),
   C9_routing_table_monotone.2.1 5 (by decide)⟩

/-- C2 counterexample: a PMT elementary-stream record with the unsupported
stream type 0x02 does not always fail the run: parsing the record succeeds
(the stream type is not examined while parsing), and when the ES PID is
already registered in the routing table the insert-if-absent application
is a no-op — no error is raised at all, contrary to the claim that every
such record fails the whole run with UnknownStreamType. -/
theorem C2_counterexample :
    program_map_table [0xE0, 0x00, 0xF0, 0x00, 0x02, 0xE0, 0x44, 0xF0, 0x00]
      = .ok [.insertEsHandler 0x44 0x02] ∧
    applyUpdate [.insertEsHandler 0x44 0x02]
      [(0, .psi .pat), (0x44, .program 0x0F (Program.new []))]
      = .ok [(0, .psi .pat), (0x44, .program 0x0F (Program.new []))] :=
  ⟨by decide, by decide⟩

/-- C2 (amended): when the routing update of a PMT elementary-stream
record is applied with its ES PID absent from the routing table, a stream
type other than 0x0F and 0x1B fails with UnknownStreamType and no sink is
created, while types 0x0F and 0x1B are accepted and a Stream Handler with
a fresh sink is registered (0x0F mapping to class "aac", 0x1B to "avc");
if the ES PID is already present the record is skipped without error
(exhibited by the counterexample). -/
theorem C2_unknown_stream_type (m : ProgramMap) (pid ty : Nat)
    (habs : lookup m pid = none) :
    (ty ≠ 0x0F → ty ≠ 0x1B →
      applyOp m (.insertEsHandler pid ty) = .error .unknownStreamType) ∧
    ((ty = 0x0F ∨ ty = 0x1B) →
      applyOp m (.insertEsHandler pid ty)
        = .ok (m ++ [(pid, .program ty (Program.new []))])) ∧
    stream_extension 0x0F = .ok "aac" ∧
    stream_extension 0x1B = .ok "avc" := by
  refine ⟨?_, ?_, rfl, rfl⟩
  · intro h15 h27
    have hw : create_writer ty = .error .unknownStreamType := by
      unfold create_writer stream_extension
      rw [if_neg h15, if_neg h27]
    simp only [applyOp, habs, hw]
  · rintro (rfl | rfl) <;> simp only [applyOp, habs] <;> rfl

theorem C2_unknown_stream_type_witness :
    applyOp [(0, Handler.psi .pat)] (.insertEsHandler 0x44 0x02)
      = .error .unknownStreamType :=
  (C2_unknown_stream_type [(0, .psi .pat)] 0x44 0x02 (by decide)).1
    (by decide) (by decide)

/-- C7: the PMT elementary-stream record loop succeeds exactly when the
remaining payload splits into records of size 5 + es_info_length with
valid reserved bits, consuming the payload exactly; a nonempty leftover of
1 to 4 bytes is a fatal MalformedTable, and a record declaring a length
that extends past the end of the payload is a fatal MalformedTable. -/
theorem C7_es_record_partition (es : List Nat) :
    ((∃ u, esLoop es = .ok u) ↔ EsRecords es) ∧
    (es ≠ [] → es.length < 5 → esLoop es = .error .malformedTable) ∧
    (5 ≤ es.length → es.getD 1 0 / 32 % 8 = 7 → es.getD 3 0 / 4 % 64 = 60 →
      es.length < 5 + ((es.getD 3 0 % 4) * 256 + es.getD 4 0) →
      esLoop es = .error .malformedTable) := by
  refine ⟨esLoopF_ok_iff es.length es le_rfl, ?_, ?_⟩
  · intro hne h5
    exact esLoopF_leftover hne h5
  · intro h5 hb1 hb3 hover
    exact esLoopF_overflow h5 hb1 hb3 hover le_rfl

theorem C7_es_record_partition_witness :
    esLoop [0xFF] = .error .malformedTable ∧
    (∃ u, esLoop [0x0F, 0xE0, 0x44, 0xF0, 0x00] = .ok u) := by
  constructor
  · exact (C7_es_record_partition [0xFF]).2.1 (by decide) (by decide)
  · refine (C7_es_record_partition _).1.mpr ?_
    exact EsRecords.cons (by decide) (by decide) (by decide) (by decide)
      EsRecords.nil

/-- C8 counterexample: a PMT payload of length 6 declaring
program_info_length = 5 passes the "strictly less than the payload length"
check (5 < 6), yet record parsing does not begin after the skipped
descriptor bytes: the skipping slice itself overruns the payload and
parsing fails with a bounds panic, although record parsing on the (empty)
remainder would have succeeded. -/
theorem C8_counterexample :
    program_map_table [0xE0, 0x00, 0xF0, 0x05, 0xFF, 0xFF]
      = .error .boundsError ∧
    esLoop (([0xE0, 0x00, 0xF0, 0x05, 0xFF, 0xFF] : List Nat).drop 9)
      = .ok [] ∧
    (((0xF0 : Nat) % 4) * 256 + 0x05 < ([0xE0, 0x00, 0xF0, 0x05, 0xFF, 0xFF] : List Nat).length) :=
  ⟨by decide, by decide, by decide⟩

/-- C8 (amended): with the header reserved-bit checks passing, the PMT
interpreter fails with MalformedTable whenever program_info_length is at
least the full table-payload length; when 4 + program_info_length fits in
the payload the descriptor bytes are skipped uninterpreted and record
parsing runs on exactly the bytes after them; and in the boundary zone —
program_info_length smaller than the payload length but 4 +
program_info_length beyond it — parsing fails with a bounds error rather
than reaching record parsing (exhibited by the counterexample). -/
theorem C8_program_info_skip (d : List Nat)
    (hlen : 4 < d.length)
    (hb0 : d.getD 0 0 / 32 % 8 = 7)
    (hb2 : d.getD 2 0 / 4 % 64 = 60) :
    (d.length ≤ (d.getD 2 0 % 4) * 256 + d.getD 3 0 →
      program_map_table d = .error .malformedTable) ∧
    (4 + ((d.getD 2 0 % 4) * 256 + d.getD 3 0) ≤ d.length →
      program_map_table d
        = esLoop (d.drop (4 + ((d.getD 2 0 % 4) * 256 + d.getD 3 0)))) ∧
    ((d.getD 2 0 % 4) * 256 + d.getD 3 0 < d.length →
     d.length < 4 + ((d.getD 2 0 % 4) * 256 + d.getD 3 0) →
      program_map_table d = .error .boundsError) := by
  refine ⟨?_, ?_, ?_⟩
  · intro hge
    unfold program_map_table
    rw [if_neg (by omega), if_neg (not_not_intro hb0), if_neg (not_not_intro hb2)]
    dsimp only
    rw [if_pos hge]
  · intro hfits
    unfold program_map_table
    rw [if_neg (by omega), if_neg (not_not_intro hb0), if_neg (not_not_intro hb2)]
    dsimp only
    rw [if_neg (by omega), sliceFrom_ok (by omega)]
  · intro hlt hover
    unfold program_map_table
    rw [if_neg (by omega), if_neg (not_not_intro hb0), if_neg (not_not_intro hb2)]
    dsimp only
    rw [if_neg (by omega), sliceFrom_err (by omega)]

theorem C8_program_info_skip_witness :
    program_map_table [0xE0, 0x00, 0xF0, 0x07, 0xFF, 0xFF]
      = .error .malformedTable ∧
    program_map_table [0xE0, 0x00, 0xF0, 0x00, 0x0F, 0xE0, 0x44, 0xF0, 0x00]
      = esLoop [0x0F, 0xE0, 0x44, 0xF0, 0x00] := by
  constructor
  · exact (C8_program_info_skip _ (by decide) (by decide) (by decide)).1
      (by decide)
  · exact (C8_program_info_skip [0xE0, 0x00, 0xF0, 0x00, 0x0F, 0xE0, 0x44, 0xF0, 0x00]
      (by decide) (by decide) (by decide)).2.1 (by decide)

/-- a 188-byte PSI packet (sync byte, adaptation control 01, unit start
with pointer field 0, table id 0, header bit pattern 1011) declaring
section_length = 1020 -/
def c1packet : Packet :=
  [0x47, 0x40, 0x00, 0x10, 0x00, 0x00, 0xB3, 0xFC] ++ List.replicate 180 0

/-- C1 counterexample: on a 188-byte packet whose sync, filler and
table-header-bit checks all pass and which declares section_length = 1020,
parsing does not proceed without error: a 1020-byte section cannot fit in
a 188-byte packet, so the parser fails (with a slice-bounds panic) even
though the declared length passed the 1021 check. -/
theorem C1_counterexample :
    (c1packet.getD 6 0 % 16) * 256 + c1packet.getD 7 0 = 1020 ∧
    c1packet.length = 188 ∧
    psiProcess .pat c1packet = .error .boundsError :=
  ⟨by decide, by decide, by decide⟩

/-- C1 (amended): in the PSI table parser, once the 3-byte table header is
readable and its table-id and bit-pattern checks pass, a declared
section_length of 1021 or more is rejected with MalformedTable, and the
acceptance boundary of the length check itself is exactly
section_length < 1021; a declared section_length of 1020 passes that check
but — in a 188-byte packet — parsing then necessarily fails with a
slice-bounds panic, because the section cannot fit (exhibited by the
counterexample). -/
theorem C1_section_length_boundary (k : TableKind) (p : Packet) (off : Nat)
    (hlen : p.length = 188) (hoff3 : off + 3 ≤ 188)
    (hid : p.getD off 0 ≠ 0xFF)
    (hbits : p.getD (off + 1) 0 / 16 % 16 = 11) :
    (1021 ≤ (p.getD (off + 1) 0 % 16) * 256 + p.getD (off + 2) 0 →
      psiAfterOffset k p off = .error .malformedTable) ∧
    ((p.getD (off + 1) 0 % 16) * 256 + p.getD (off + 2) 0 = 1020 →
      psiAfterOffset k p off = .error .boundsError) := by
  have hsl : slice p off (off + 3) = .ok ((p.drop off).take 3) := by
    have h := @slice_ok p off (off + 3) (by omega) (by omega)
    simpa using h
  have hh0 : ((p.drop off).take 3).getD 0 0 = p.getD off 0 := by
    rw [getD_take _ (by omega), getD_drop, Nat.add_zero]
  have hh1 : ((p.drop off).take 3).getD 1 0 = p.getD (off + 1) 0 := by
    rw [getD_take _ (by omega), getD_drop]
  have hh2 : ((p.drop off).take 3).getD 2 0 = p.getD (off + 2) 0 := by
    rw [getD_take _ (by omega), getD_drop]
  constructor
  · intro hge
    unfold psiAfterOffset
    rw [hsl]
    dsimp only
    rw [hh0, hh1, hh2, if_neg hid, if_neg (not_not_intro hbits), if_pos hge]
  · intro heq
    unfold psiAfterOffset
    rw [hsl]
    dsimp only
    rw [hh0, hh1, hh2, if_neg hid, if_neg (not_not_intro hbits), heq]
    rw [if_neg (by omega)]
    rw [slice_err (show ¬(off ≤ off + 3 + 1020 ∧ off + 3 + 1020 ≤ p.length) by
      rw [hlen]; omega)]

theorem C1_section_length_boundary_witness :
    psiAfterOffset .pat
      ([0x47, 0x40, 0x00, 0x10, 0x00, 0x00, 0xB3, 0xFD] ++ List.replicate 180 0)
      5
      = .error .malformedTable :=
  (C1_section_length_boundary .pat _ 5
    (by decide) (by decide) (by decide) (by decide)).1 (by decide)

end TsDemux
